import Mathlib

set_option maxHeartbeats 1000000

/-!
Shallow embedding of the gSensor firmware real-time core
(src/Firmware/src/signal_processing.{h,cpp}, touch.{h,cpp}, ui_manager.{h,cpp},
settings.h, ble_service.cpp, main.cpp, config.h).

Machine floats (`float`) are embedded as exact arithmetic: the template
class `MovingAverage<T, N>` is embedded generically over a `Field`, so that
claims about the filter can be instantiated at `ℚ` (computable) while the
`SignalProcessor`, whose magnitude channel uses `sqrtf`, is instantiated at
`ℝ` with `Real.sqrt`.  `uint32_t` millisecond timestamps are embedded as `ℕ`
with explicit wrap-around modulo `2 ^ 32` where the code subtracts them.
-/

namespace GSensor

/-! ## config.h constants -/

/-- config.h line 80: moving average window size. -/
def MOVING_AVG_WINDOW_SIZE : ℕ := 10

/-- config.h line 114. -/
def TOUCH_TAP_THRESHOLD_MS : ℕ := 300

/-- config.h line 115. -/
def TOUCH_LONG_PRESS_MS : ℕ := 500

/-- config.h line 137. -/
def BLE_MAX_NOTIFY_RATE_HZ : ℕ := 50

/-- config.h line 138. -/
def BLE_MIN_NOTIFY_RATE_HZ : ℕ := 5

/-! ## signal_processing.h : MovingAverage<T, N>

The C++ ring buffer `T buffer_[N]` is embedded as a `List` of length `N`
(the length plays the role of the template parameter `N`). -/

/-- State of `MovingAverage<T, N>`: ring buffer, write index, fill count,
running sum (signal_processing.h lines 97-101). -/
structure MovingAverage (α : Type) where
  buffer : List α
  index : ℕ
  count : ℕ
  sum : α

namespace MovingAverage

variable {α : Type} [Field α]

/-- `MovingAverage()` constructor: zeroed buffer, index 0, count 0, sum 0. -/
def init (N : ℕ) : MovingAverage α :=
  { buffer := List.replicate N 0, index := 0, count := 0, sum := 0 }

/-- `addSample(value)` (signal_processing.h lines 38-55): subtract the
outgoing buffer entry from the running sum, store the new value, advance
the index modulo `N`, and saturate the count at `N`. -/
def addSample (value : α) (m : MovingAverage α) : MovingAverage α :=
  let N := m.buffer.length
  { buffer := m.buffer.set m.index value
    index := (m.index + 1) % N
    count := if m.count < N then m.count + 1 else m.count
    sum := m.sum - m.buffer.getD m.index 0 + value }

/-- `getAverage()` (signal_processing.h lines 62-65): 0 when no samples,
otherwise `sum_ / count_`. -/
def getAverage (m : MovingAverage α) : α :=
  if m.count = 0 then 0 else m.sum / (m.count : α)

/-- `reset()` (signal_processing.h lines 70-77): zero the buffer, index,
count and sum together. -/
def reset (m : MovingAverage α) : MovingAverage α :=
  { buffer := List.replicate m.buffer.length 0, index := 0, count := 0, sum := 0 }

/-- `getSampleCount()` (signal_processing.h lines 93-95). -/
def getSampleCount (m : MovingAverage α) : ℕ := m.count

/-- A sequence of `addSample` calls, oldest first. -/
def run (l : List α) (m : MovingAverage α) : MovingAverage α :=
  l.foldl (fun acc v => addSample v acc) m

end MovingAverage

/-- The most recent `N` entries of `l` (all of `l` when `l.length ≤ N`):
the mathematical window that the ring buffer is meant to hold. -/
def window (N : ℕ) {α : Type} (l : List α) : List α :=
  l.drop (l.length - N)

/-- The coupling invariant between a processed sample list `l` and the
ring-buffer state: the count saturates at `N`, the index is the write
position `l.length % N`, the running sum is the sum of the window, and the
buffer is the window stored circularly (untouched slots still zero while
the buffer is filling). -/
def MovingAverage.Inv (N : ℕ) {α : Type} [Field α] (l : List α)
    (m : MovingAverage α) : Prop :=
  m.buffer.length = N ∧
  m.count = min l.length N ∧
  m.index = l.length % N ∧
  m.sum = (window N l).sum ∧
  m.buffer =
    if l.length < N then
      l ++ List.replicate (N - l.length) 0
    else
      (window N l).drop (N - l.length % N) ++ (window N l).take (N - l.length % N)

/-! ## signal_processing.h / .cpp : AccelData and SignalProcessor -/

/-- 3-axis acceleration sample (signal_processing.h lines 107-120). -/
structure AccelData where
  x : ℝ
  y : ℝ
  z : ℝ

/-- `AccelData::magnitude()`: `sqrtf(x*x + y*y + z*z)`. -/
noncomputable def AccelData.magnitude (d : AccelData) : ℝ :=
  Real.sqrt (d.x * d.x + d.y * d.y + d.z * d.z)

/-- `SignalProcessor` state (signal_processing.h lines 174-181). -/
structure SignalProcessor where
  filterX : MovingAverage ℝ
  filterY : MovingAverage ℝ
  filterZ : MovingAverage ℝ
  filterMag : MovingAverage ℝ
  lastFiltered : AccelData
  peakMagnitude : ℝ

namespace SignalProcessor

/-- `SignalProcessor()` constructor (signal_processing.cpp lines 8-15). -/
noncomputable def init : SignalProcessor :=
  { filterX := MovingAverage.init MOVING_AVG_WINDOW_SIZE
    filterY := MovingAverage.init MOVING_AVG_WINDOW_SIZE
    filterZ := MovingAverage.init MOVING_AVG_WINDOW_SIZE
    filterMag := MovingAverage.init MOVING_AVG_WINDOW_SIZE
    lastFiltered := ⟨0, 0, 0⟩
    peakMagnitude := 0 }

/-- `SignalProcessor::process(raw)` (signal_processing.cpp lines 17-36):
filter each axis, filter the magnitude of the *raw* sample separately, and
raise the peak when the filtered magnitude exceeds it.  In the C++,
`addSample` returns `getAverage()` of the updated filter; here the updated
state and its `getAverage` play those two roles. -/
noncomputable def process (raw : AccelData) (s : SignalProcessor) : SignalProcessor :=
  let fX := s.filterX.addSample raw.x
  let fY := s.filterY.addSample raw.y
  let fZ := s.filterZ.addSample raw.z
  let rawMagnitude := raw.magnitude
  let fM := s.filterMag.addSample rawMagnitude
  let filteredMag := fM.getAverage
  { filterX := fX
    filterY := fY
    filterZ := fZ
    filterMag := fM
    lastFiltered := ⟨fX.getAverage, fY.getAverage, fZ.getAverage⟩
    peakMagnitude := if filteredMag > s.peakMagnitude then filteredMag else s.peakMagnitude }

/-- `getFilteredMagnitude()` (signal_processing.cpp lines 38-40). -/
noncomputable def getFilteredMagnitude (s : SignalProcessor) : ℝ :=
  s.filterMag.getAverage

/-- `getPeakMagnitude()` (signal_processing.cpp lines 42-44). -/
def getPeakMagnitude (s : SignalProcessor) : ℝ := s.peakMagnitude

/-- `resetPeak()` (signal_processing.cpp lines 46-48): zeroes only the peak. -/
def resetPeak (s : SignalProcessor) : SignalProcessor :=
  { s with peakMagnitude := 0 }

/-- `reset()` (signal_processing.cpp lines 50-57): clears all four filters,
the last filtered sample and the peak together. -/
noncomputable def reset (s : SignalProcessor) : SignalProcessor :=
  { filterX := s.filterX.reset
    filterY := s.filterY.reset
    filterZ := s.filterZ.reset
    filterMag := s.filterMag.reset
    lastFiltered := ⟨0, 0, 0⟩
    peakMagnitude := 0 }

/-- A sequence of `process` calls, oldest sample first. -/
noncomputable def processList (l : List AccelData) (s : SignalProcessor) : SignalProcessor :=
  l.foldl (fun acc raw => process raw acc) s

end SignalProcessor

/-! ## touch.h / touch.cpp : gestures -/

/-- `enum class TouchGesture` (touch.h lines 18-22). -/
inductive TouchGesture where
  | NONE
  | TAP
  | LONG_PRESS
deriving DecidableEq

/-- `struct TouchEvent` (touch.h lines 27-32). -/
structure TouchEvent where
  gesture : TouchGesture
  x : ℤ
  y : ℤ
  timestamp : ℕ
deriving DecidableEq

/-- The `TouchManager` fields involved in gesture classification
(touch.h lines 84-92). -/
structure TouchState where
  currentEvent_ : TouchEvent
  touching_ : Bool
  lastTouching_ : Bool
  touchX_ : ℤ
  touchY_ : ℤ
  touchStartTime_ : ℕ
  eventPending_ : Bool
deriving DecidableEq

/-- `uint32_t duration = millis() - touchStartTime_` with `uint32_t`
wrap-around subtraction made explicit. -/
def touchDuration (now start : ℕ) : ℕ :=
  (now % 2 ^ 32 + 2 ^ 32 - start % 2 ^ 32) % 2 ^ 32

namespace TouchManager

/-- `TouchManager::processGesture()` (touch.cpp lines 172-194): duration at
least 500 ms is a long press; 50-299 ms is a tap; otherwise the event
gesture is set to NONE and the function returns before marking the event
pending or updating its coordinates. -/
def processGesture (now : ℕ) (ts : TouchState) : TouchState :=
  let duration := touchDuration now ts.touchStartTime_
  if duration ≥ TOUCH_LONG_PRESS_MS then
    { ts with
      currentEvent_ := ⟨TouchGesture.LONG_PRESS, ts.touchX_, ts.touchY_, now⟩
      eventPending_ := true }
  else if 50 ≤ duration ∧ duration < TOUCH_TAP_THRESHOLD_MS then
    { ts with
      currentEvent_ := ⟨TouchGesture.TAP, ts.touchX_, ts.touchY_, now⟩
      eventPending_ := true }
  else
    { ts with currentEvent_ := { ts.currentEvent_ with gesture := TouchGesture.NONE } }

/-- `TouchManager::getEvent()` (touch.cpp lines 196-202): read-and-clear of
the pending event; a NONE event when nothing is pending. -/
def getEvent (ts : TouchState) : TouchEvent × TouchState :=
  if ts.eventPending_ then (ts.currentEvent_, { ts with eventPending_ := false })
  else (⟨TouchGesture.NONE, 0, 0, 0⟩, ts)

end TouchManager

/-! ## settings.h and ui_manager.h / ui_manager.cpp -/

/-- `enum class UIScreen` (settings.h lines 17-20). -/
inductive UIScreen where
  | MAIN_GAUGE
  | SETTINGS
deriving DecidableEq

/-- `struct Settings` (settings.h lines 28-39), defaults true/true. -/
structure Settings where
  bleEnabled : Bool := true
  serialEnabled : Bool := true
deriving DecidableEq

/-- Default-constructed `Settings`. -/
def Settings.init : Settings := {}

/-- `struct TouchRegion` (ui_manager.h lines 18-22). -/
structure TouchRegion where
  x1 : ℤ
  y1 : ℤ
  x2 : ℤ
  y2 : ℤ
  action : ℕ

/-- ui_manager.h line 25. -/
def ACTION_NONE : ℕ := 0

/-- ui_manager.h line 26. -/
def ACTION_TOGGLE_BLE : ℕ := 1

/-- ui_manager.h line 27. -/
def ACTION_TOGGLE_SERIAL : ℕ := 2

/-- ui_manager.h line 28. -/
def ACTION_BACK : ℕ := 3

/-- First entry of `settingsRegions` (ui_manager.cpp line 11): BLE toggle row. -/
def bleToggleRegion : TouchRegion := ⟨30, 60, 210, 100, ACTION_TOGGLE_BLE⟩

/-- Second entry of `settingsRegions` (ui_manager.cpp line 12): serial toggle row. -/
def serialToggleRegion : TouchRegion := ⟨30, 110, 210, 150, ACTION_TOGGLE_SERIAL⟩

/-- Third entry of `settingsRegions` (ui_manager.cpp line 13): back button. -/
def backRegion : TouchRegion := ⟨70, 195, 170, 230, ACTION_BACK⟩

/-- `settingsRegions[]` (ui_manager.cpp lines 10-14). -/
def settingsRegions : List TouchRegion :=
  [bleToggleRegion, serialToggleRegion, backRegion]

/-- The point-in-rectangle test of `UIManager::hitTest`
(ui_manager.cpp line 89), as a Bool. -/
def inRegionB (r : TouchRegion) (x y : ℤ) : Bool :=
  decide (r.x1 ≤ x) && decide (x ≤ r.x2) && decide (r.y1 ≤ y) && decide (y ≤ r.y2)

/-- The `UIManager` state (ui_manager.h lines 85-87). -/
structure UIState where
  currentScreen_ : UIScreen
  screenChanged_ : Bool
  peakResetPending_ : Bool
deriving DecidableEq

namespace UIManager

/-- `UIManager::UIManager()` (ui_manager.cpp lines 17-21): main gauge screen,
screen-changed flag already true, no pending peak reset. -/
def init : UIState :=
  { currentScreen_ := UIScreen.MAIN_GAUGE
    screenChanged_ := true
    peakResetPending_ := false }

/-- `UIManager::hitTest(x, y)` (ui_manager.cpp lines 86-94): first matching
region wins, `ACTION_NONE` when no region matches. -/
def hitTestList : List TouchRegion → ℤ → ℤ → ℕ
  | [], _, _ => ACTION_NONE
  | r :: rest, x, y =>
      if r.x1 ≤ x ∧ x ≤ r.x2 ∧ r.y1 ≤ y ∧ y ≤ r.y2 then r.action
      else hitTestList rest x y

/-- `hitTest` over the fixed `settingsRegions` table. -/
def hitTest (x y : ℤ) : ℕ := hitTestList settingsRegions x y

/-- `UIManager::handleMainGaugeTouch` (ui_manager.cpp lines 41-52): a tap
opens settings, a long press raises the peak-reset flag, anything else is
ignored. -/
def handleMainGaugeTouch (event : TouchEvent) (s : UIState) (st : Settings) :
    UIState × Settings :=
  if event.gesture = TouchGesture.TAP then
    ({ s with currentScreen_ := UIScreen.SETTINGS, screenChanged_ := true }, st)
  else if event.gesture = TouchGesture.LONG_PRESS then
    ({ s with peakResetPending_ := true }, st)
  else (s, st)

/-- `UIManager::handleSettingsTouch` (ui_manager.cpp lines 54-84): non-tap
gestures return immediately; a tap is hit-tested, toggling a setting or
returning to the main gauge (the `ACTION_BACK` case and the `default` case
of the C++ switch have the same state effect and are merged here). -/
def handleSettingsTouch (event : TouchEvent) (s : UIState) (st : Settings) :
    UIState × Settings :=
  if event.gesture ≠ TouchGesture.TAP then (s, st)
  else
    let action := hitTest event.x event.y
    if action = ACTION_TOGGLE_BLE then (s, { st with bleEnabled := !st.bleEnabled })
    else if action = ACTION_TOGGLE_SERIAL then
      (s, { st with serialEnabled := !st.serialEnabled })
    else ({ s with currentScreen_ := UIScreen.MAIN_GAUGE, screenChanged_ := true }, st)

/-- `UIManager::handleTouch` (ui_manager.cpp lines 23-39): NONE gestures are
dropped (returning false); otherwise the event is dispatched by screen. -/
def handleTouch (event : TouchEvent) (s : UIState) (st : Settings) :
    (UIState × Settings) × Bool :=
  if event.gesture = TouchGesture.NONE then ((s, st), false)
  else
    match s.currentScreen_ with
    | UIScreen.MAIN_GAUGE => (handleMainGaugeTouch event s st, true)
    | UIScreen.SETTINGS => (handleSettingsTouch event s st, true)

/-- `UIManager::setScreen` (ui_manager.cpp lines 100-105). -/
def setScreen (screen : UIScreen) (s : UIState) : UIState :=
  if s.currentScreen_ ≠ screen then
    { s with currentScreen_ := screen, screenChanged_ := true }
  else s

/-- `UIManager::screenChanged()` (ui_manager.cpp lines 107-113):
read-and-clear of the screen-changed flag. -/
def screenChanged (s : UIState) : Bool × UIState :=
  if s.screenChanged_ then (true, { s with screenChanged_ := false })
  else (false, s)

/-- `UIManager::peakResetRequested()` (ui_manager.cpp lines 115-121):
read-and-clear of the peak-reset flag. -/
def peakResetRequested (s : UIState) : Bool × UIState :=
  if s.peakResetPending_ then (true, { s with peakResetPending_ := false })
  else (false, s)

end UIManager

/-- The UIManager operations reachable from the main loop: touch dispatch,
button-driven `setScreen`, and the two read-and-clear queries. -/
inductive UIOp where
  | touch (event : TouchEvent)
  | setScreen (screen : UIScreen)
  | queryScreenChanged
  | queryPeakReset
deriving DecidableEq

/-- State effect of one UIManager operation. -/
def applyOp (op : UIOp) (p : UIState × Settings) : UIState × Settings :=
  match op with
  | UIOp.touch ev => (UIManager.handleTouch ev p.1 p.2).1
  | UIOp.setScreen sc => (UIManager.setScreen sc p.1, p.2)
  | UIOp.queryScreenChanged => ((UIManager.screenChanged p.1).2, p.2)
  | UIOp.queryPeakReset => ((UIManager.peakResetRequested p.1).2, p.2)

/-- Run a sequence of UIManager operations. -/
def runOps (l : List UIOp) (p : UIState × Settings) : UIState × Settings :=
  l.foldl (fun q op => applyOp op q) p

/-- True when running `l` from `p` never changes the active screen. -/
def noTransition : List UIOp → UIState × Settings → Bool
  | [], _ => true
  | op :: rest, p =>
      ((applyOp op p).1.currentScreen_ == p.1.currentScreen_) &&
        noTransition rest (applyOp op p)

/-! ## ble_service.cpp and main.cpp : runtime rate configuration -/

/-- `BleService::setNotificationRate(rateHz)` (ble_service.cpp lines
169-189): clamp into [BLE_MIN_NOTIFY_RATE_HZ, BLE_MAX_NOTIFY_RATE_HZ] and
store; the stored value is returned here. -/
def setNotificationRate (rateHz : ℕ) : ℕ :=
  if rateHz < BLE_MIN_NOTIFY_RATE_HZ then BLE_MIN_NOTIFY_RATE_HZ
  else if rateHz > BLE_MAX_NOTIFY_RATE_HZ then BLE_MAX_NOTIFY_RATE_HZ
  else rateHz

/-- `setSampleRate(rateHz)` (main.cpp lines 59-86): only 100, 200, 400 and
800 Hz are accepted (stored in `currentSampleRateHz`, returning true); any
other request returns false and leaves the current rate unchanged. -/
def setSampleRate (rateHz : ℕ) (currentSampleRateHz : ℕ) : Bool × ℕ :=
  if rateHz = 100 ∨ rateHz = 200 ∨ rateHz = 400 ∨ rateHz = 800 then (true, rateHz)
  else (false, currentSampleRateHz)

/-! ## Theorems -/

/-! ### List helpers for the ring-buffer invariant -/

theorem set_append_length {α : Type} (l r : List α) (v : α) :
    (l ++ r).set l.length v = l ++ r.set 0 v := by
  induction l with
  | nil => rfl
  | cons a t ih => simp [ih]

theorem set_append_length' {α : Type} (l r : List α) (v : α) (n : ℕ)
    (h : l.length = n) : (l ++ r).set n v = l ++ r.set 0 v := by
  subst h
  exact set_append_length l r v

theorem getD_append_length {α : Type} (l r : List α) (d : α) :
    (l ++ r).getD l.length d = r.getD 0 d := by
  rw [List.getD_append_right l r d l.length le_rfl, Nat.sub_self]

theorem getD_append_length' {α : Type} (l r : List α) (d : α) (n : ℕ)
    (h : l.length = n) : (l ++ r).getD n d = r.getD 0 d := by
  subst h
  exact getD_append_length l r d

theorem window_length {α : Type} (N : ℕ) (l : List α) :
    (window N l).length = min l.length N := by
  simp only [window, List.length_drop]
  omega

theorem window_of_le {α : Type} {N : ℕ} {l : List α} (h : l.length ≤ N) :
    window N l = l := by
  simp [window, Nat.sub_eq_zero_of_le h]

theorem window_append_lt {α : Type} {N : ℕ} {l : List α} (v : α) (h : l.length < N) :
    window N (l ++ [v]) = l ++ [v] :=
  window_of_le (by simp; omega)

theorem window_append_ge {α : Type} {N : ℕ} {l : List α} (v : α)
    (h : N ≤ l.length) (hN : 0 < N) :
    window N (l ++ [v]) = (window N l).tail ++ [v] := by
  rw [window, window, List.tail_drop, List.drop_append_eq_append_drop]
  have h1 : (l ++ [v]).length - N = l.length - N + 1 := by
    simp only [List.length_append, List.length_cons, List.length_nil]
    omega
  have h2 : l.length - N + 1 - l.length = 0 := by omega
  rw [h1, h2]
  rfl

/-! ### The ring-buffer invariant is established and preserved -/

theorem Inv_init {α : Type} [Field α] {N : ℕ} (hN : 0 < N) :
    MovingAverage.Inv N ([] : List α) (MovingAverage.init N) := by
  refine ⟨by simp [MovingAverage.init], by simp [MovingAverage.init],
    by simp [MovingAverage.init], by simp [MovingAverage.init, window], ?_⟩
  simp [MovingAverage.init, hN]

theorem Inv_addSample {α : Type} [Field α] {N : ℕ} (hN : 0 < N) {l : List α}
    {m : MovingAverage α} (h : MovingAverage.Inv N l m) (v : α) :
    MovingAverage.Inv N (l ++ [v]) (m.addSample v) := by
  obtain ⟨hlen, hcount, hindex, hsum, hbuf⟩ := h
  have hlapp : (l ++ [v]).length = l.length + 1 := by simp
  by_cases hkN : l.length < N
  · -- buffer still filling: index = count = l.length, untouched slots are 0
    have hidx : m.index = l.length := by rw [hindex, Nat.mod_eq_of_lt hkN]
    have hbuf' : m.buffer = l ++ List.replicate (N - l.length) 0 := by
      rw [hbuf, if_pos hkN]
    have hrep : List.replicate (N - l.length) (0 : α)
        = 0 :: List.replicate (N - (l.length + 1)) 0 := by
      have hh : N - l.length = (N - (l.length + 1)) + 1 := by omega
      rw [hh]
      rfl
    have hgetD : m.buffer.getD m.index 0 = 0 := by
      rw [hbuf', hidx, getD_append_length, hrep]
      rfl
    have hset : m.buffer.set m.index v
        = (l ++ [v]) ++ List.replicate (N - (l.length + 1)) 0 := by
      rw [hbuf', hidx, set_append_length, hrep]
      simp only [List.set]
      rw [List.append_assoc]
      rfl
    refine ⟨by simp [MovingAverage.addSample, hlen], ?_, ?_, ?_, ?_⟩
    · -- count
      simp only [MovingAverage.addSample, hlen, hcount, hlapp]
      rw [if_pos (by omega)]
      omega
    · -- index
      simp only [MovingAverage.addSample, hlen, hidx, hlapp]
    · -- sum
      simp only [MovingAverage.addSample, hgetD, hsum,
        window_of_le hkN.le, window_append_lt v hkN, List.sum_append]
      simp
    · -- buffer
      simp only [MovingAverage.addSample, hset, hlapp]
      by_cases hk1 : l.length + 1 < N
      · rw [if_pos hk1]
      · have hk1' : l.length + 1 = N := by omega
        rw [if_neg hk1]
        have hwin : window N (l ++ [v]) = l ++ [v] := window_append_lt v hkN
        have hlen1 : (window N (l ++ [v])).length = N := by
          rw [hwin]
          simp only [List.length_append, List.length_cons, List.length_nil]
          omega
        have hz : N - (l.length + 1) = 0 := by omega
        rw [hz, hk1', Nat.mod_self, Nat.sub_zero]
        rw [List.drop_eq_nil_of_le (le_of_eq hlen1),
          List.take_of_length_le (le_of_eq hlen1), List.nil_append, hwin]
        simp
  · -- buffer full: the write position holds the oldest window entry
    have hNk : N ≤ l.length := le_of_not_lt hkN
    have hiN : l.length % N < N := Nat.mod_lt _ hN
    have hwlen : (window N l).length = N := by rw [window_length]; omega
    obtain ⟨a, t, hwat⟩ : ∃ a t, window N l = a :: t := by
      cases hq : window N l with
      | nil => rw [hq] at hwlen; simp at hwlen; omega
      | cons a t => exact ⟨a, t, rfl⟩
    have htlen : t.length = N - 1 := by
      have hz := hwlen
      rw [hwat] at hz
      simp at hz
      omega
    have hbuf' : m.buffer
        = (window N l).drop (N - l.length % N) ++ (window N l).take (N - l.length % N) := by
      rw [hbuf, if_neg hkN]
    have hdroplen : ((window N l).drop (N - l.length % N)).length = l.length % N := by
      simp [hwlen]
      omega
    have htake : (window N l).take (N - l.length % N)
        = a :: t.take (N - l.length % N - 1) := by
      have hh : N - l.length % N = (N - l.length % N - 1) + 1 := by omega
      rw [hwat, hh]
      rfl
    have hgetD : m.buffer.getD m.index 0 = a := by
      rw [hbuf', hindex, getD_append_length' _ _ _ _ hdroplen, htake]
      rfl
    have hset : m.buffer.set m.index v
        = (window N l).drop (N - l.length % N)
          ++ v :: t.take (N - l.length % N - 1) := by
      rw [hbuf', hindex, set_append_length' _ _ _ _ hdroplen, htake]
      rfl
    have hwin' : window N (l ++ [v]) = t ++ [v] := by
      rw [window_append_ge v hNk hN, hwat]
      rfl
    refine ⟨by simp [MovingAverage.addSample, hlen], ?_, ?_, ?_, ?_⟩
    · -- count
      simp only [MovingAverage.addSample, hlen, hcount, hlapp]
      rw [if_neg (by omega)]
      omega
    · -- index
      simp only [MovingAverage.addSample, hlen, hindex, hlapp]
      exact Nat.mod_add_mod l.length N 1
    · -- sum
      simp only [MovingAverage.addSample, hgetD, hsum, hwin', hwat, List.sum_append,
        List.sum_cons, List.sum_nil]
      ring
    · -- buffer
      simp only [MovingAverage.addSample, hset, hlapp]
      rw [if_neg (by omega), hwin']
      have hidx1 : (l.length + 1) % N = (l.length % N + 1) % N :=
        (Nat.mod_add_mod l.length N 1).symm
      by_cases hi1 : l.length % N + 1 < N
      · -- index advances without wrapping
        have hmod : (l.length + 1) % N = l.length % N + 1 := by
          rw [hidx1, Nat.mod_eq_of_lt hi1]
        rw [hmod]
        have hdrop2 : (t ++ [v]).drop (N - (l.length % N + 1))
            = t.drop (N - l.length % N - 1) ++ [v] := by
          rw [List.drop_append_eq_append_drop]
          have hz : N - (l.length % N + 1) - t.length = 0 := by omega
          have he : N - (l.length % N + 1) = N - l.length % N - 1 := by omega
          rw [hz, he]
          rfl
        have htake2 : (t ++ [v]).take (N - (l.length % N + 1))
            = t.take (N - l.length % N - 1) := by
          rw [List.take_append_eq_append_take]
          have hz : N - (l.length % N + 1) - t.length = 0 := by omega
          have he : N - (l.length % N + 1) = N - l.length % N - 1 := by omega
          rw [hz, he]
          simp
        rw [hdrop2, htake2]
        have hdrop1 : (window N l).drop (N - l.length % N)
            = t.drop (N - l.length % N - 1) := by
          have hh : N - l.length % N = (N - l.length % N - 1) + 1 := by omega
          rw [hwat, hh]
          rfl
        rw [hdrop1, List.append_assoc]
        rfl
      · -- index wraps to 0
        have hi1' : l.length % N + 1 = N := by omega
        have hmod : (l.length + 1) % N = 0 := by
          rw [hidx1, hi1', Nat.mod_self]
        rw [hmod, Nat.sub_zero]
        have hlen2 : (t ++ [v]).length = N := by
          simp only [List.length_append, List.length_cons, List.length_nil]
          omega
        rw [List.drop_eq_nil_of_le (le_of_eq hlen2),
          List.take_of_length_le (le_of_eq hlen2), List.nil_append]
        have h1 : N - l.length % N = 1 := by omega
        rw [hwat] at hset ⊢
        rw [h1]
        simp

theorem Inv_run {α : Type} [Field α] {N : ℕ} (hN : 0 < N) (l : List α) :
    MovingAverage.Inv N l (MovingAverage.run l (MovingAverage.init N)) := by
  induction l using List.reverseRecOn with
  | nil => exact Inv_init hN
  | append_singleton t v ih =>
      have : MovingAverage.run (t ++ [v]) (MovingAverage.init N)
          = (MovingAverage.run t (MovingAverage.init N)).addSample v := by
        rw [MovingAverage.run, MovingAverage.run, List.foldl_append]
        rfl
      rw [this]
      exact Inv_addSample hN ih v

/-- The average computed by the ring buffer is the mean of the window. -/
theorem getAverage_run {α : Type} [Field α] {N : ℕ} (hN : 0 < N) (l : List α) :
    (MovingAverage.run l (MovingAverage.init N)).getAverage
      = (window N l).sum / ((min l.length N : ℕ) : α) := by
  obtain ⟨hlen, hcount, hindex, hsum, hbuf⟩ := Inv_run hN l
  rw [MovingAverage.getAverage, hcount, hsum]
  by_cases h0 : l.length = 0
  · rw [if_pos (by omega)]
    have : l = [] := List.length_eq_zero.mp h0
    subst this
    simp [window]
  · rw [if_neg (by omega)]

/-- Claim C1: for every window size N ≥ 1 and every sequence of `addSample`
calls from the initial state: after k ≤ N calls, `getAverage()` is the
arithmetic mean of exactly the k values added so far; after k > N calls it
is the mean of the most recent N values (N = MOVING_AVG_WINDOW_SIZE = 10
in the reference configuration). -/
theorem movingAverage_mean_spec (N : ℕ) (hN : 0 < N) (l : List ℚ) :
    (l.length ≤ N →
      (MovingAverage.run l (MovingAverage.init N)).getAverage
        = l.sum / (l.length : ℚ))
  ∧ (N < l.length →
      (MovingAverage.run l (MovingAverage.init N)).getAverage
        = (l.drop (l.length - N)).sum / (N : ℚ)) := by
  constructor
  · intro h
    rw [getAverage_run hN, window_of_le h, min_eq_left h]
  · intro h
    rw [getAverage_run hN, min_eq_right (le_of_lt h)]
    rfl

/-- Witness for C1 at N = MOVING_AVG_WINDOW_SIZE = 10: three samples
average to their mean 6; twelve samples average to the mean 16/5 of the
most recent ten. -/
theorem movingAverage_mean_spec_witness :
    ((MovingAverage.run [(3 : ℚ), 5, 10] (MovingAverage.init 10)).getAverage
        = [(3 : ℚ), 5, 10].sum / (([(3 : ℚ), 5, 10].length : ℕ) : ℚ)
      ∧ (MovingAverage.run [(3 : ℚ), 5, 10] (MovingAverage.init 10)).getAverage = 6)
  ∧ ((MovingAverage.run [(1 : ℚ), 1, 1, 1, 1, 1, 1, 1, 1, 1, 1, 23]
        (MovingAverage.init 10)).getAverage
        = ([(1 : ℚ), 1, 1, 1, 1, 1, 1, 1, 1, 1, 1, 23].drop
            ([(1 : ℚ), 1, 1, 1, 1, 1, 1, 1, 1, 1, 1, 23].length - 10)).sum / ((10 : ℕ) : ℚ)
      ∧ (MovingAverage.run [(1 : ℚ), 1, 1, 1, 1, 1, 1, 1, 1, 1, 1, 23]
          (MovingAverage.init 10)).getAverage = 16 / 5) := by
  have h1 := (movingAverage_mean_spec 10 (by norm_num) [(3 : ℚ), 5, 10]).1 (by simp)
  have h2 := (movingAverage_mean_spec 10 (by norm_num)
    [(1 : ℚ), 1, 1, 1, 1, 1, 1, 1, 1, 1, 1, 23]).2 (by simp)
  refine ⟨⟨h1, ?_⟩, ⟨h2, ?_⟩⟩
  · rw [h1]
    norm_num
  · rw [h2]
    norm_num

/-- Claim C2: gesture classification on touch release is a pure function of
contact duration: duration < 50 ms yields no gesture (the next `getEvent`
returns a NONE gesture); 50 ms ≤ duration < 300 ms yields a Tap at the last
known coordinates; 300 ms ≤ duration < 500 ms yields no gesture (dead
zone); duration ≥ 500 ms yields a LongPress. -/
theorem gesture_classification_spec (ts : TouchState) (now d : ℕ)
    (hd : touchDuration now ts.touchStartTime_ = d) :
    (d < 50 →
      (TouchManager.getEvent (TouchManager.processGesture now ts)).1.gesture
        = TouchGesture.NONE)
  ∧ (50 ≤ d → d < TOUCH_TAP_THRESHOLD_MS →
      (TouchManager.getEvent (TouchManager.processGesture now ts)).1
        = ⟨TouchGesture.TAP, ts.touchX_, ts.touchY_, now⟩)
  ∧ (TOUCH_TAP_THRESHOLD_MS ≤ d → d < TOUCH_LONG_PRESS_MS →
      (TouchManager.getEvent (TouchManager.processGesture now ts)).1.gesture
        = TouchGesture.NONE)
  ∧ (TOUCH_LONG_PRESS_MS ≤ d →
      (TouchManager.getEvent (TouchManager.processGesture now ts)).1
        = ⟨TouchGesture.LONG_PRESS, ts.touchX_, ts.touchY_, now⟩) := by
  unfold TOUCH_TAP_THRESHOLD_MS TOUCH_LONG_PRESS_MS
  refine ⟨fun h1 => ?_, fun h2 h2' => ?_, fun h3 h3' => ?_, fun h4 => ?_⟩
  · rw [TouchManager.processGesture]
    simp only [hd]
    rw [if_neg (by unfold TOUCH_LONG_PRESS_MS; omega),
      if_neg (by unfold TOUCH_TAP_THRESHOLD_MS; omega)]
    rw [TouchManager.getEvent]
    by_cases hp : ts.eventPending_ <;> simp [hp]
  · rw [TouchManager.processGesture]
    simp only [hd]
    rw [if_neg (by unfold TOUCH_LONG_PRESS_MS; omega),
      if_pos (by unfold TOUCH_TAP_THRESHOLD_MS; omega)]
    simp [TouchManager.getEvent]
  · rw [TouchManager.processGesture]
    simp only [hd]
    rw [if_neg (by unfold TOUCH_LONG_PRESS_MS; omega),
      if_neg (by unfold TOUCH_TAP_THRESHOLD_MS; omega)]
    rw [TouchManager.getEvent]
    by_cases hp : ts.eventPending_ <;> simp [hp]
  · rw [TouchManager.processGesture]
    simp only [hd]
    rw [if_pos (by unfold TOUCH_LONG_PRESS_MS; omega)]
    simp [TouchManager.getEvent]

/-- Witness for C2: from a concrete touch state with contact start at
1000 ms and last coordinates (12, 34), releases at 1010, 1150, 1400 and
1600 ms classify as none, tap, none and long-press respectively. -/
theorem gesture_classification_spec_witness :
    (TouchManager.getEvent (TouchManager.processGesture 1010
      ⟨⟨TouchGesture.NONE, 0, 0, 0⟩, true, true, 12, 34, 1000, false⟩)).1.gesture
        = TouchGesture.NONE
  ∧ (TouchManager.getEvent (TouchManager.processGesture 1150
      ⟨⟨TouchGesture.NONE, 0, 0, 0⟩, true, true, 12, 34, 1000, false⟩)).1
        = ⟨TouchGesture.TAP, 12, 34, 1150⟩
  ∧ (TouchManager.getEvent (TouchManager.processGesture 1400
      ⟨⟨TouchGesture.NONE, 0, 0, 0⟩, true, true, 12, 34, 1000, false⟩)).1.gesture
        = TouchGesture.NONE
  ∧ (TouchManager.getEvent (TouchManager.processGesture 1600
      ⟨⟨TouchGesture.NONE, 0, 0, 0⟩, true, true, 12, 34, 1000, false⟩)).1
        = ⟨TouchGesture.LONG_PRESS, 12, 34, 1600⟩ :=
  ⟨(gesture_classification_spec _ 1010 10 (by decide)).1 (by decide),
   (gesture_classification_spec _ 1150 150 (by decide)).2.1 (by decide) (by decide),
   (gesture_classification_spec _ 1400 400 (by decide)).2.2.1 (by decide) (by decide),
   (gesture_classification_spec _ 1600 600 (by decide)).2.2.2 (by decide)⟩

/-- Counterexample for C7: the sample-rate setter does not clamp an
out-of-range request to the nearest valid bound; at 300 Hz it rejects the
request outright (returns false) and leaves the current 100 Hz rate
unchanged, contradicting the claim that every out-of-range runtime rate
request is clamped and never rejected. -/
theorem sample_rate_reject_counterexample :
    setSampleRate 300 100 = (false, 100) ∧ (false, 100).2 ≠ 200 ∧ (false, 100).2 ≠ 400 := by
  refine ⟨?_, by decide, by decide⟩
  rw [setSampleRate, if_neg (by omega)]

/-- Claim C7 (amended): `setNotificationRate` clamps every requested rate
into [BLE_MIN_NOTIFY_RATE_HZ, BLE_MAX_NOTIFY_RATE_HZ] = [5, 50], storing
exactly the clamp of its argument; the sample-rate setter, by contrast,
accepts exactly the rates 100, 200, 400 and 800 Hz and rejects any other
request, returning false and leaving the current rate unchanged. -/
theorem rate_clamp_spec (r cur : ℕ) :
    (BLE_MIN_NOTIFY_RATE_HZ ≤ setNotificationRate r
      ∧ setNotificationRate r ≤ BLE_MAX_NOTIFY_RATE_HZ
      ∧ setNotificationRate r = min BLE_MAX_NOTIFY_RATE_HZ (max BLE_MIN_NOTIFY_RATE_HZ r))
  ∧ ((r = 100 ∨ r = 200 ∨ r = 400 ∨ r = 800) → setSampleRate r cur = (true, r))
  ∧ (¬(r = 100 ∨ r = 200 ∨ r = 400 ∨ r = 800) → setSampleRate r cur = (false, cur)) := by
  unfold setNotificationRate setSampleRate BLE_MIN_NOTIFY_RATE_HZ BLE_MAX_NOTIFY_RATE_HZ
  refine ⟨?_, fun h => by rw [if_pos h], fun h => by rw [if_neg h]⟩
  split_ifs <;> omega

/-- Witness for C7 (amended): a 60 Hz notification request is stored as
50 Hz; a 200 Hz sample-rate request is accepted; a 300 Hz sample-rate
request is refused, keeping 100 Hz. -/
theorem rate_clamp_spec_witness :
    (BLE_MIN_NOTIFY_RATE_HZ ≤ setNotificationRate 60
      ∧ setNotificationRate 60 ≤ BLE_MAX_NOTIFY_RATE_HZ
      ∧ setNotificationRate 60 = min BLE_MAX_NOTIFY_RATE_HZ (max BLE_MIN_NOTIFY_RATE_HZ 60))
  ∧ setSampleRate 200 100 = (true, 200)
  ∧ setSampleRate 300 100 = (false, 100) :=
  ⟨(rate_clamp_spec 60 100).1,
   (rate_clamp_spec 200 100).2.1 (by decide),
   (rate_clamp_spec 300 100).2.2 (by decide)⟩

/-! ### UI state machine lemmas -/

theorem inRegionB_iff (r : TouchRegion) (x y : ℤ) :
    inRegionB r x y = true ↔ (r.x1 ≤ x ∧ x ≤ r.x2 ∧ r.y1 ≤ y ∧ y ≤ r.y2) := by
  simp [inRegionB, and_assoc]

theorem hitTest_back_or_none (x y : ℤ)
    (h : inRegionB backRegion x y = true
      ∨ ∀ r ∈ settingsRegions, inRegionB r x y = false) :
    UIManager.hitTest x y = ACTION_BACK ∨ UIManager.hitTest x y = ACTION_NONE := by
  rcases h with h | h
  · left
    rw [inRegionB_iff] at h
    simp only [backRegion] at h
    simp only [UIManager.hitTest, settingsRegions, UIManager.hitTestList,
      bleToggleRegion, serialToggleRegion, backRegion]
    rw [if_neg (by omega), if_neg (by omega), if_pos (by omega)]
  · right
    have h1 := h bleToggleRegion (by simp [settingsRegions])
    have h2 := h serialToggleRegion (by simp [settingsRegions])
    have h3 := h backRegion (by simp [settingsRegions])
    have h1' : ¬(bleToggleRegion.x1 ≤ x ∧ x ≤ bleToggleRegion.x2
        ∧ bleToggleRegion.y1 ≤ y ∧ y ≤ bleToggleRegion.y2) := by
      intro hp
      rw [(inRegionB_iff bleToggleRegion x y).mpr hp] at h1
      exact Bool.noConfusion h1
    have h2' : ¬(serialToggleRegion.x1 ≤ x ∧ x ≤ serialToggleRegion.x2
        ∧ serialToggleRegion.y1 ≤ y ∧ y ≤ serialToggleRegion.y2) := by
      intro hp
      rw [(inRegionB_iff serialToggleRegion x y).mpr hp] at h2
      exact Bool.noConfusion h2
    have h3' : ¬(backRegion.x1 ≤ x ∧ x ≤ backRegion.x2
        ∧ backRegion.y1 ≤ y ∧ y ≤ backRegion.y2) := by
      intro hp
      rw [(inRegionB_iff backRegion x y).mpr hp] at h3
      exact Bool.noConfusion h3
    simp only [UIManager.hitTest, settingsRegions, UIManager.hitTestList]
    rw [if_neg h1', if_neg h2', if_neg h3']

/-- Claim C5: in state MainGauge, a Tap transitions the screen to Settings
and a LongPress raises the peak-reset-requested flag without changing the
screen; in state Settings, a Tap whose coordinates lie inside the back
region, or outside all three named regions, transitions back to MainGauge. -/
theorem ui_transition_spec (s : UIState) (st : Settings) (ev : TouchEvent) :
    (s.currentScreen_ = UIScreen.MAIN_GAUGE → ev.gesture = TouchGesture.TAP →
      (UIManager.handleTouch ev s st).1.1.currentScreen_ = UIScreen.SETTINGS)
  ∧ (s.currentScreen_ = UIScreen.MAIN_GAUGE → ev.gesture = TouchGesture.LONG_PRESS →
      (UIManager.handleTouch ev s st).1.1.currentScreen_ = s.currentScreen_
      ∧ (UIManager.handleTouch ev s st).1.1.peakResetPending_ = true)
  ∧ (s.currentScreen_ = UIScreen.SETTINGS → ev.gesture = TouchGesture.TAP →
      (inRegionB backRegion ev.x ev.y = true
        ∨ ∀ r ∈ settingsRegions, inRegionB r ev.x ev.y = false) →
      (UIManager.handleTouch ev s st).1.1.currentScreen_ = UIScreen.MAIN_GAUGE) := by
  refine ⟨fun hs hg => ?_, fun hs hg => ?_, fun hs hg hr => ?_⟩
  · rw [UIManager.handleTouch, if_neg (by rw [hg]; simp), hs]
    simp only
    rw [UIManager.handleMainGaugeTouch, if_pos hg]
  · rw [UIManager.handleTouch, if_neg (by rw [hg]; simp), hs]
    simp only
    rw [UIManager.handleMainGaugeTouch, if_neg (by rw [hg]; simp), if_pos hg]
    exact ⟨hs, rfl⟩
  · rw [UIManager.handleTouch, if_neg (by rw [hg]; simp), hs]
    simp only
    rw [UIManager.handleSettingsTouch, if_neg (by rw [hg]; simp)]
    rcases hitTest_back_or_none ev.x ev.y hr with ha | ha <;>
      simp [ha, ACTION_BACK, ACTION_NONE, ACTION_TOGGLE_BLE, ACTION_TOGGLE_SERIAL]

/-- Witness for C5: from the main gauge, a tap opens Settings and a long
press requests a peak reset; on Settings, a tap at (100, 200) (inside the
back region) and a tap at (5, 5) (outside every region) both return to the
main gauge. -/
theorem ui_transition_spec_witness :
    (UIManager.handleTouch ⟨TouchGesture.TAP, 5, 5, 0⟩ UIManager.init
      ⟨true, true⟩).1.1.currentScreen_ = UIScreen.SETTINGS
  ∧ ((UIManager.handleTouch ⟨TouchGesture.LONG_PRESS, 5, 5, 0⟩ UIManager.init
        ⟨true, true⟩).1.1.currentScreen_ = UIManager.init.currentScreen_
      ∧ (UIManager.handleTouch ⟨TouchGesture.LONG_PRESS, 5, 5, 0⟩ UIManager.init
          ⟨true, true⟩).1.1.peakResetPending_ = true)
  ∧ (UIManager.handleTouch ⟨TouchGesture.TAP, 100, 200, 0⟩
      ⟨UIScreen.SETTINGS, false, false⟩ ⟨true, true⟩).1.1.currentScreen_
        = UIScreen.MAIN_GAUGE
  ∧ (UIManager.handleTouch ⟨TouchGesture.TAP, 5, 5, 0⟩
      ⟨UIScreen.SETTINGS, false, false⟩ ⟨true, true⟩).1.1.currentScreen_
        = UIScreen.MAIN_GAUGE :=
  ⟨(ui_transition_spec UIManager.init ⟨true, true⟩ ⟨TouchGesture.TAP, 5, 5, 0⟩).1
      rfl rfl,
   (ui_transition_spec UIManager.init ⟨true, true⟩
      ⟨TouchGesture.LONG_PRESS, 5, 5, 0⟩).2.1 rfl rfl,
   (ui_transition_spec ⟨UIScreen.SETTINGS, false, false⟩ ⟨true, true⟩
      ⟨TouchGesture.TAP, 100, 200, 0⟩).2.2 rfl rfl (Or.inl (by decide)),
   (ui_transition_spec ⟨UIScreen.SETTINGS, false, false⟩ ⟨true, true⟩
      ⟨TouchGesture.TAP, 5, 5, 0⟩).2.2 rfl rfl (Or.inr (by decide))⟩

/-- Any UIManager operation that changes the active screen also raises the
screen-changed flag. -/
theorem applyOp_transition_flag (op : UIOp) (p : UIState × Settings)
    (h : (applyOp op p).1.currentScreen_ ≠ p.1.currentScreen_) :
    (applyOp op p).1.screenChanged_ = true := by
  cases op with
  | touch ev =>
      cases hsc : p.1.currentScreen_ <;>
        simp only [applyOp, UIManager.handleTouch, UIManager.handleMainGaugeTouch,
          UIManager.handleSettingsTouch, hsc] at h ⊢ <;>
        split_ifs at h ⊢ <;> simp_all
  | setScreen sc =>
      simp only [applyOp, UIManager.setScreen] at h ⊢
      split_ifs at h ⊢ <;> simp_all
  | queryScreenChanged =>
      simp only [applyOp, UIManager.screenChanged] at h ⊢
      split_ifs at h ⊢ <;> simp_all
  | queryPeakReset =>
      simp only [applyOp, UIManager.peakResetRequested] at h ⊢
      split_ifs at h ⊢ <;> simp_all

/-- Any UIManager operation that leaves the active screen unchanged also
leaves a lowered screen-changed flag lowered. -/
theorem applyOp_preserve_flag (op : UIOp) (p : UIState × Settings)
    (hflag : p.1.screenChanged_ = false)
    (h : (applyOp op p).1.currentScreen_ = p.1.currentScreen_) :
    (applyOp op p).1.screenChanged_ = false := by
  cases op with
  | touch ev =>
      cases hsc : p.1.currentScreen_ <;>
        simp only [applyOp, UIManager.handleTouch, UIManager.handleMainGaugeTouch,
          UIManager.handleSettingsTouch, hsc] at h ⊢ <;>
        split_ifs at h ⊢ <;> simp_all
  | setScreen sc =>
      simp only [applyOp, UIManager.setScreen] at h ⊢
      split_ifs at h ⊢ <;> simp_all
  | queryScreenChanged =>
      simp only [applyOp, UIManager.screenChanged] at h ⊢
      split_ifs at h ⊢ <;> simp_all
  | queryPeakReset =>
      simp only [applyOp, UIManager.peakResetRequested] at h ⊢
      split_ifs at h ⊢ <;> simp_all

/-- A transition-free run keeps a lowered screen-changed flag lowered. -/
theorem runOps_preserve_flag (l : List UIOp) (p : UIState × Settings)
    (hflag : p.1.screenChanged_ = false) (h : noTransition l p = true) :
    (runOps l p).1.screenChanged_ = false := by
  induction l generalizing p with
  | nil => exact hflag
  | cons op rest ih =>
      rw [noTransition, Bool.and_eq_true, beq_iff_eq] at h
      exact ih (applyOp op p) (applyOp_preserve_flag op p hflag h.1) h.2

/-- No UIManager operation other than the `screenChanged()` query itself
lowers a raised screen-changed flag. -/
theorem applyOp_keep_flag (op : UIOp) (p : UIState × Settings)
    (hop : op ≠ UIOp.queryScreenChanged) (hflag : p.1.screenChanged_ = true) :
    (applyOp op p).1.screenChanged_ = true := by
  cases op with
  | touch ev =>
      cases hsc : p.1.currentScreen_ <;>
        simp only [applyOp, UIManager.handleTouch, UIManager.handleMainGaugeTouch,
          UIManager.handleSettingsTouch, hsc] <;>
        split_ifs <;> simp_all
  | setScreen sc =>
      simp only [applyOp, UIManager.setScreen]
      split_ifs <;> simp_all
  | queryScreenChanged => exact absurd rfl hop
  | queryPeakReset =>
      simp only [applyOp, UIManager.peakResetRequested]
      split_ifs <;> simp_all

/-- A raised screen-changed flag survives any run of operations that does
not contain a `screenChanged()` query. -/
theorem runOps_keep_flag (l : List UIOp) (p : UIState × Settings)
    (hl : UIOp.queryScreenChanged ∉ l) (hflag : p.1.screenChanged_ = true) :
    (runOps l p).1.screenChanged_ = true := by
  induction l generalizing p with
  | nil => exact hflag
  | cons op rest ih =>
      have hop : op ≠ UIOp.queryScreenChanged := by
        intro he
        apply hl
        rw [he]
        exact List.mem_cons_self _ _
      have hrest : UIOp.queryScreenChanged ∉ rest := fun hm =>
        hl (List.mem_cons_of_mem op hm)
      exact ih (applyOp op p) hrest (applyOp_keep_flag op p hop hflag)

/-- Claim C6: `screenChanged()` returns true exactly once per screen
transition: any operation that transitions the screen raises the flag, and
the flag survives every further operation that is not itself a
`screenChanged()` call, so the first call after a transition returns true
no matter which operations run in between; a call clears the flag; and
after a cleared flag every further call returns false until the next
transition. -/
theorem screen_changed_once_spec (p : UIState × Settings) (op : UIOp)
    (l l' : List UIOp) (q : UIState × Settings) :
    ((applyOp op p).1.currentScreen_ ≠ p.1.currentScreen_ →
      UIOp.queryScreenChanged ∉ l →
      (UIManager.screenChanged (runOps l (applyOp op p)).1).1 = true)
  ∧ (∀ s : UIState, ((UIManager.screenChanged s).2).screenChanged_ = false)
  ∧ (q.1.screenChanged_ = false → noTransition l' q = true →
      (UIManager.screenChanged (runOps l' q).1).1 = false) := by
  refine ⟨fun h hl => ?_, fun s => ?_, fun hq hnt => ?_⟩
  · rw [UIManager.screenChanged,
      if_pos (runOps_keep_flag l (applyOp op p) hl (applyOp_transition_flag op p h))]
  · rw [UIManager.screenChanged]
    split_ifs with hf <;> simp_all
  · rw [UIManager.screenChanged,
      if_neg (by rw [runOps_preserve_flag l' q hq hnt]; simp)]

/-- Witness for C6: a tap on the main gauge transitions to Settings, a
peak-reset query and a long press run in between (the main-loop pattern),
and the first `screenChanged()` call afterwards still returns true; a call
clears the flag; and after a transition-free pair of operations the next
call returns false. -/
theorem screen_changed_once_spec_witness :
    (UIManager.screenChanged (runOps
      [UIOp.queryPeakReset, UIOp.touch ⟨TouchGesture.LONG_PRESS, 5, 5, 0⟩]
      (applyOp (UIOp.touch ⟨TouchGesture.TAP, 5, 5, 0⟩)
        (⟨UIScreen.MAIN_GAUGE, false, false⟩, ⟨true, true⟩))).1).1 = true
  ∧ ((UIManager.screenChanged ⟨UIScreen.SETTINGS, true, false⟩).2).screenChanged_ = false
  ∧ (UIManager.screenChanged (runOps
      [UIOp.queryPeakReset, UIOp.touch ⟨TouchGesture.LONG_PRESS, 5, 5, 0⟩]
      (⟨UIScreen.SETTINGS, false, false⟩, ⟨true, true⟩)).1).1 = false :=
  ⟨(screen_changed_once_spec (⟨UIScreen.MAIN_GAUGE, false, false⟩, ⟨true, true⟩)
      (UIOp.touch ⟨TouchGesture.TAP, 5, 5, 0⟩)
      [UIOp.queryPeakReset, UIOp.touch ⟨TouchGesture.LONG_PRESS, 5, 5, 0⟩]
      [UIOp.queryPeakReset, UIOp.touch ⟨TouchGesture.LONG_PRESS, 5, 5, 0⟩]
      (⟨UIScreen.SETTINGS, false, false⟩, ⟨true, true⟩)).1 (by decide) (by decide),
   (screen_changed_once_spec (⟨UIScreen.MAIN_GAUGE, false, false⟩, ⟨true, true⟩)
      (UIOp.touch ⟨TouchGesture.TAP, 5, 5, 0⟩)
      [UIOp.queryPeakReset, UIOp.touch ⟨TouchGesture.LONG_PRESS, 5, 5, 0⟩]
      [UIOp.queryPeakReset, UIOp.touch ⟨TouchGesture.LONG_PRESS, 5, 5, 0⟩]
      (⟨UIScreen.SETTINGS, false, false⟩, ⟨true, true⟩)).2.1
      ⟨UIScreen.SETTINGS, true, false⟩,
   (screen_changed_once_spec (⟨UIScreen.MAIN_GAUGE, false, false⟩, ⟨true, true⟩)
      (UIOp.touch ⟨TouchGesture.TAP, 5, 5, 0⟩)
      [UIOp.queryPeakReset, UIOp.touch ⟨TouchGesture.LONG_PRESS, 5, 5, 0⟩]
      [UIOp.queryPeakReset, UIOp.touch ⟨TouchGesture.LONG_PRESS, 5, 5, 0⟩]
      (⟨UIScreen.SETTINGS, false, false⟩, ⟨true, true⟩)).2.2 rfl (by decide)⟩

/-- Claim C8: `getAverage()` returns exactly 0 whenever the sample count is
0, so division by a zero count never occurs; and after `reset()` from any
prior filter state, `getAverage()` returns exactly 0 and `getSampleCount()`
returns 0. -/
theorem getAverage_zero_safe_spec (m : MovingAverage ℚ) :
    (m.count = 0 → m.getAverage = 0)
  ∧ (m.reset).getAverage = 0
  ∧ (m.reset).getSampleCount = 0 := by
  refine ⟨fun h => ?_, ?_, rfl⟩
  · rw [MovingAverage.getAverage, if_pos h]
  · rw [MovingAverage.reset, MovingAverage.getAverage]
    simp

/-- Witness for C8: a filter state with a stale nonzero sum but zero count
still averages to 0, and resetting a filled window zeroes its average and
its sample count. -/
theorem getAverage_zero_safe_spec_witness :
    (⟨[], 0, 0, 37⟩ : MovingAverage ℚ).getAverage = 0
  ∧ ((MovingAverage.run [(3 : ℚ), 5] (MovingAverage.init 2)).reset).getAverage = 0
  ∧ ((MovingAverage.run [(3 : ℚ), 5] (MovingAverage.init 2)).reset).getSampleCount = 0 :=
  ⟨(getAverage_zero_safe_spec ⟨[], 0, 0, 37⟩).1 rfl,
   (getAverage_zero_safe_spec _).2.1,
   (getAverage_zero_safe_spec _).2.2⟩

/-! ### SignalProcessor lemmas -/

theorem processList_append (l₁ l₂ : List AccelData) (s : SignalProcessor) :
    SignalProcessor.processList (l₁ ++ l₂) s
      = SignalProcessor.processList l₂ (SignalProcessor.processList l₁ s) := by
  rw [SignalProcessor.processList, SignalProcessor.processList,
    SignalProcessor.processList, List.foldl_append]

theorem run_append {α : Type} [Field α] (l₁ l₂ : List α) (m : MovingAverage α) :
    MovingAverage.run (l₁ ++ l₂) m = MovingAverage.run l₂ (MovingAverage.run l₁ m) := by
  rw [MovingAverage.run, MovingAverage.run, MovingAverage.run, List.foldl_append]

theorem filterMag_process (raw : AccelData) (s : SignalProcessor) :
    (SignalProcessor.process raw s).filterMag = s.filterMag.addSample raw.magnitude :=
  rfl

theorem peak_process (raw : AccelData) (s : SignalProcessor) :
    (SignalProcessor.process raw s).peakMagnitude
      = max s.peakMagnitude (s.filterMag.addSample raw.magnitude).getAverage := by
  rw [SignalProcessor.process]
  simp only
  split_ifs with h
  · exact (max_eq_right (le_of_lt h)).symm
  · exact (max_eq_left (not_lt.mp h)).symm

theorem filterMag_processList (l : List AccelData) (s : SignalProcessor) :
    (SignalProcessor.processList l s).filterMag
      = MovingAverage.run (l.map AccelData.magnitude) s.filterMag := by
  induction l generalizing s with
  | nil => rfl
  | cons r t ih => exact ih (SignalProcessor.process r s)

theorem peak_mono_processList (l : List AccelData) (s : SignalProcessor) :
    s.peakMagnitude ≤ (SignalProcessor.processList l s).peakMagnitude := by
  induction l generalizing s with
  | nil => exact le_refl _
  | cons r t ih =>
      calc s.peakMagnitude
          ≤ (SignalProcessor.process r s).peakMagnitude := by
            rw [peak_process]
            exact le_max_left _ _
        _ ≤ (SignalProcessor.processList t (SignalProcessor.process r s)).peakMagnitude :=
            ih _
        _ = (SignalProcessor.processList (r :: t) s).peakMagnitude := rfl

theorem magnitude_unit : AccelData.magnitude ⟨0, 0, 1⟩ = 1 := by
  rw [AccelData.magnitude]
  rw [show ((0 : ℝ) * 0 + 0 * 0 + 1 * 1) = 1 by norm_num, Real.sqrt_one]

theorem magnitude_spike : AccelData.magnitude ⟨0, 0, 50⟩ = 50 := by
  rw [AccelData.magnitude]
  rw [show ((0 : ℝ) * 0 + 0 * 0 + 50 * 50) = 50 ^ 2 by norm_num,
    Real.sqrt_sq (by norm_num : (0 : ℝ) ≤ 50)]

theorem run_replicate_one_avg (j : ℕ) (h1 : 1 ≤ j) (h10 : j ≤ 10) :
    (MovingAverage.run (List.replicate j (1 : ℝ)) (MovingAverage.init 10)).getAverage
      = 1 := by
  rw [getAverage_run (by norm_num), List.length_replicate]
  have hz : j - 10 = 0 := by omega
  rw [window, List.length_replicate, hz, List.drop_zero, List.sum_replicate,
    min_eq_left h10, nsmul_eq_mul, mul_one]
  exact div_self (Nat.cast_ne_zero.mpr (by omega))

theorem steady_state (j : ℕ) (hj : j ≤ 10) :
    (SignalProcessor.processList (List.replicate j ⟨0, 0, 1⟩)
        SignalProcessor.init).peakMagnitude = (if j = 0 then 0 else 1)
    ∧ (SignalProcessor.processList (List.replicate j ⟨0, 0, 1⟩)
        SignalProcessor.init).filterMag
      = MovingAverage.run (List.replicate j (1 : ℝ)) (MovingAverage.init 10) := by
  induction j with
  | zero => exact ⟨rfl, rfl⟩
  | succ n ih =>
      obtain ⟨hp, hf⟩ := ih (by omega)
      have hrep : List.replicate (n + 1) (⟨0, 0, 1⟩ : AccelData)
          = List.replicate n ⟨0, 0, 1⟩ ++ [⟨0, 0, 1⟩] := List.replicate_succ' n _
      have hrep1 : List.replicate (n + 1) (1 : ℝ)
          = List.replicate n 1 ++ [1] := List.replicate_succ' n _
      have hone : SignalProcessor.processList [(⟨0, 0, 1⟩ : AccelData)]
            (SignalProcessor.processList (List.replicate n ⟨0, 0, 1⟩) SignalProcessor.init)
          = SignalProcessor.process ⟨0, 0, 1⟩
            (SignalProcessor.processList (List.replicate n ⟨0, 0, 1⟩)
              SignalProcessor.init) := rfl
      have hadd : (MovingAverage.run (List.replicate n (1 : ℝ))
              (MovingAverage.init 10)).addSample 1
          = MovingAverage.run (List.replicate (n + 1) (1 : ℝ)) (MovingAverage.init 10) := by
        rw [hrep1, run_append]
        rfl
      constructor
      · rw [hrep, processList_append, hone, peak_process, hp, hf, magnitude_unit,
          hadd, run_replicate_one_avg (n + 1) (by omega) (by omega)]
        by_cases hn : n = 0 <;> simp [hn]
      · rw [hrep, processList_append, hone, filterMag_process, hf, magnitude_unit, hadd]

/-- Claim C3: across any sequence of `process()` calls with no `resetPeak()`
and no `reset()`, `getPeakMagnitude()` is monotonically non-decreasing, and
immediately after `resetPeak()` it returns exactly 0. -/
theorem peak_monotone_spec (s : SignalProcessor) (l₁ l₂ : List AccelData) :
    (SignalProcessor.processList l₁ s).getPeakMagnitude
      ≤ (SignalProcessor.processList (l₁ ++ l₂) s).getPeakMagnitude
  ∧ (s.resetPeak).getPeakMagnitude = 0 := by
  constructor
  · rw [processList_append]
    exact peak_mono_processList l₂ _
  · rfl

/-- Claim C4: the magnitude channel is filtered from the Euclidean norm of
the raw input sample: from a fresh state, `getFilteredMagnitude()` equals
the moving average of the most recent min(k, N) raw magnitudes
sqrt(x²+y²+z²); consequently a spike sample (0,0,50) after ten steady
(0,0,1) samples raises the peak to the magnitude filter's post-spike
average 59/10, not to the spike's raw magnitude 50. -/
theorem magnitude_filter_raw_spec :
    (∀ l : List AccelData,
      (SignalProcessor.processList l SignalProcessor.init).getFilteredMagnitude
        = (window MOVING_AVG_WINDOW_SIZE (l.map AccelData.magnitude)).sum
          / ((min l.length MOVING_AVG_WINDOW_SIZE : ℕ) : ℝ))
  ∧ (SignalProcessor.processList
        (List.replicate 10 ⟨0, 0, 1⟩ ++ [⟨0, 0, 50⟩])
        SignalProcessor.init).getPeakMagnitude = 59 / 10
  ∧ AccelData.magnitude ⟨0, 0, 50⟩ = 50
  ∧ (59 / 10 : ℝ) ≠ 50 := by
  refine ⟨fun l => ?_, ?_, magnitude_spike, by norm_num⟩
  · rw [SignalProcessor.getFilteredMagnitude, filterMag_processList,
      show SignalProcessor.init.filterMag
        = MovingAverage.init MOVING_AVG_WINDOW_SIZE from rfl,
      getAverage_run (by norm_num [MOVING_AVG_WINDOW_SIZE]), List.length_map]
  · obtain ⟨hp, hf⟩ := steady_state 10 (le_refl 10)
    rw [SignalProcessor.getPeakMagnitude, processList_append,
      show SignalProcessor.processList [(⟨0, 0, 50⟩ : AccelData)]
          (SignalProcessor.processList (List.replicate 10 ⟨0, 0, 1⟩)
            SignalProcessor.init)
        = SignalProcessor.process ⟨0, 0, 50⟩
          (SignalProcessor.processList (List.replicate 10 ⟨0, 0, 1⟩)
            SignalProcessor.init) from rfl,
      peak_process, hp, hf, magnitude_spike]
    have hadd : (MovingAverage.run (List.replicate 10 (1 : ℝ))
            (MovingAverage.init 10)).addSample 50
        = MovingAverage.run (List.replicate 10 (1 : ℝ) ++ [50])
            (MovingAverage.init 10) := by
      rw [run_append]
      rfl
    rw [hadd, getAverage_run (by norm_num)]
    have hwin : window 10 (List.replicate 10 (1 : ℝ) ++ [50])
        = List.replicate 9 (1 : ℝ) ++ [50] := by
      rw [window, List.drop_append_eq_append_drop]
      simp
    rw [hwin, List.sum_append, List.sum_replicate]
    simp only [List.length_append, List.length_replicate, List.length_cons,
      List.length_nil, List.sum_cons, List.sum_nil, nsmul_eq_mul]
    norm_num

/-- Claim C9: at construction, `UIManager` initializes its screen-changed
flag to true, so the very first `screenChanged()` call returns true even
though no screen transition has occurred; the initial screen is the main
gauge. -/
theorem initial_screen_changed_spec :
    UIManager.init.screenChanged_ = true
  ∧ (UIManager.screenChanged UIManager.init).1 = true
  ∧ UIManager.init.currentScreen_ = UIScreen.MAIN_GAUGE :=
  ⟨rfl, rfl, rfl⟩

/-- Claim C10: on the Settings screen, `handleTouch` with any gesture other
than Tap (in particular LongPress) changes nothing: the active screen, both
settings booleans, the screen-changed flag and the peak-reset-pending flag
are all left exactly as they were. -/
theorem settings_nontap_frame_spec (s : UIState) (st : Settings) (ev : TouchEvent)
    (hs : s.currentScreen_ = UIScreen.SETTINGS) (hg : ev.gesture ≠ TouchGesture.TAP) :
    (UIManager.handleTouch ev s st).1 = (s, st) := by
  rw [UIManager.handleTouch]
  by_cases hn : ev.gesture = TouchGesture.NONE
  · rw [if_pos hn]
  · rw [if_neg hn]
    rw [hs]
    simp only
    rw [UIManager.handleSettingsTouch, if_pos hg]

/-- Witness for C10: a long press on the Settings screen leaves the whole
UI state and both settings booleans untouched. -/
theorem settings_nontap_frame_spec_witness :
    (UIManager.handleTouch ⟨TouchGesture.LONG_PRESS, 5, 6, 0⟩
        ⟨UIScreen.SETTINGS, false, false⟩ ⟨true, false⟩).1
      = (⟨UIScreen.SETTINGS, false, false⟩, ⟨true, false⟩) :=
  settings_nontap_frame_spec ⟨UIScreen.SETTINGS, false, false⟩ ⟨true, false⟩
    ⟨TouchGesture.LONG_PRESS, 5, 6, 0⟩ rfl (by decide)

end GSensor
